import Mathlib

/-! Shallow embedding of `src/map.rs` from the `staticmap` crate.

The crate's `bounds.rs`, `tools.rs` and `lib.rs` (error type) are not part of
the provided sources; where a claim depends on them they are modelled from the
specification and marked `Modelled from the spec:` in their doc comments.
External collaborators (the HTTP transport `attohttpc`, the raster codec and
compositor `tiny_skia`, the `retry` crate, `dashmap`, `rayon`) are modelled by
their documented observable behaviour.  Machine integers (`i32` tile indices,
`u32` sizes, `u8` zoom) are modelled as `Int`/`Nat`; no claim exercises
overflow.  The rayon parallel map over the tile list has two models.
`acquireAll` is its fully sequential linearization (rayon's `collect` into a
`Vec` preserves input order), adequate for the properties that are invariant
under the interleaving of the worker pool: which tiles succeed, which error
is surfaced first, and how many attempts one retry loop makes.
`acquireAllPar` is interleaving-parametric: what each tile's `DashMap::get`
returns is a per-tile lookup view constrained only by `LookSound`, so it
covers every schedule of the pool, including the fully concurrent one in
which misses on the same URL each fetch independently; cache-contention
properties are settled against it.  Network attempts and retry sleeps are
recorded in an explicit event log so that claims about "number of fetches"
and "delays between attempts" are statable.
-/

namespace Staticmap

/-- Model of `tiny_skia::Pixmap`: a `width × height` pixel buffer.  Pixel
contents are a total function from coordinates to a color value. -/
structure Pixmap where
  width : Nat
  height : Nat
  pix : Nat → Nat → Nat

/-- Model of `tiny_skia::Pixmap::new(width, height)`, which returns `None`
when either dimension is zero (the "degenerate pixel buffer" case; the
library's additional upper size limit is not exercised by any claim).  A fresh
pixmap is zero-initialised. -/
def pixmapNew (w h : Nat) : Option Pixmap :=
  if w = 0 ∨ h = 0 then none else some ⟨w, h, fun _ _ => 0⟩

/-- Model of Rust `str::replace` on character lists: replace every
non-overlapping occurrence of `pat`, scanning left to right.  The `Nat`
argument is structural fuel, always called with the length of the string,
which suffices because each step consumes at least one character.  All
patterns used by `map.rs` are nonempty. -/
def replChars (pat rep : List Char) : Nat → List Char → List Char
  | 0, s => s
  | _ + 1, [] => []
  | n + 1, c :: rest =>
    if pat.isPrefixOf (c :: rest) then rep ++ replChars pat rep n (rest.drop (pat.length - 1))
    else c :: replChars pat rep n rest

/-- Model of Rust `str::replace(pat, rep)` (replace all occurrences). -/
def replaceStr (s pat rep : String) : String :=
  ⟨replChars pat.data rep.data s.data.length s.data⟩

/-- The crate's error type (declared in `lib.rs`, not under `src/`), with the
variants used by `map.rs` and named by the spec.  The transport cause carried
inside `TileError` is an external `attohttpc` value and is not modelled; the
URL field is.  `TileError` is the spec's `TileFetchError{url, cause}`. -/
inductive Error
  | InvalidSize
  | MissingZoom
  | TileError (url : String)
  | PngDecodingError
deriving DecidableEq

/-- Model of `Arc<DashMap<String, Pixmap>>` as an association list.  `insert`
prepends, and `get` returns the newest entry, so an insert overwrites any
previous binding for the same key, as in `DashMap`. -/
abbrev Cache := List (String × Pixmap)

/-- Model of `DashMap::get`. -/
def cacheGet : Cache → String → Option Pixmap
  | [], _ => none
  | p :: rest, url => if p.1 = url then some p.2 else cacheGet rest url

/-- Model of `DashMap::insert`. -/
def cacheInsert (c : Cache) (url : String) (pm : Pixmap) : Cache :=
  (url, pm) :: c

/-- The resolved view window produced by `BoundsBuilder::build` (`bounds.rs`,
not under `src/`).  Fields are the ones `map.rs` reads: canvas size, zoom and
the half-open tile index ranges. -/
structure Bounds where
  width : Nat
  height : Nat
  zoom : Nat
  tile_size : Nat
  x_min : Int
  x_max : Int
  y_min : Int
  y_max : Int

/-- Modelled from the spec: `Bounds::x_to_px` (`bounds.rs`, not under `src/`)
maps a tile index to a pixel offset relative to the resolved viewport origin.
The exact origin uses floating-point Mercator projection; it is modelled as an
offset from the first tile.  No claim depends on its value. -/
def Bounds.x_to_px (b : Bounds) (x : Int) : Int :=
  (x - b.x_min) * b.tile_size

/-- Modelled from the spec: `Bounds::y_to_px`, as for `Bounds.x_to_px`. -/
def Bounds.y_to_px (b : Bounds) (y : Int) : Int :=
  (y - b.y_min) * b.tile_size

/-- Modelled from the spec: the `Tool` trait (`tools.rs`, not under `src/`).
A tool draws itself onto a pixel buffer given the resolved bounds (mutation
becomes state passing).  The extent query only feeds zoom/center inference,
which no claim exercises, so it is not modelled. -/
structure Tool where
  draw : Bounds → Pixmap → Pixmap

/-- The unresolved view configuration accumulated by `StaticMapBuilder::build`
(`BoundsBuilder`, from `bounds.rs`): a record of the options passed through
by `map.rs`. -/
structure BoundsBuilder where
  width : Nat
  height : Nat
  padding : Nat × Nat
  zoom : Option Nat
  lat_center : Option Float
  lon_center : Option Float
  tile_size : Nat

/-- Modelled from the spec: the zoom chosen by the fitting search when no
explicit zoom is set but annotations exist ("the finest zoom at which the
bounding box fits").  The search is floating-point projection arithmetic in
`bounds.rs` (not under `src/`); no claim depends on the inferred value, so it
is abstracted to a fixed function of the tools. -/
def inferZoom (_tools : List Tool) : Nat := 0

/-- Modelled from the spec: the number of tiles of the half-open index range
along one axis — enough tiles to cover the canvas plus slack ("one extra tile
on each edge").  The exact center-dependent endpoints use floating-point
projection in `bounds.rs` (not under `src/`); the range is modelled as
starting at tile 0.  No claim depends on the endpoints themselves. -/
def tileSpan (pixels tile_size : Nat) : Int :=
  ((pixels / tile_size + 2 : Nat) : Int)

/-- Modelled from the spec: `BoundsBuilder::build` (`bounds.rs`, not under
`src/`).  Per the spec, when both zoom and annotations are absent the view
cannot be resolved and the render fails with `MissingZoom` before any network
activity; otherwise an explicit zoom is used directly and a missing zoom is
inferred from the annotations.  Canvas size and tile size pass through. -/
def BoundsBuilder.build (b : BoundsBuilder) (tools : List Tool) : Except Error Bounds :=
  match b.zoom with
  | some z =>
    .ok ⟨b.width, b.height, z, b.tile_size, 0, tileSpan b.width b.tile_size,
      0, tileSpan b.height b.tile_size⟩
  | none =>
    if tools.isEmpty then .error .MissingZoom
    else
      .ok ⟨b.width, b.height, inferZoom tools, b.tile_size, 0, tileSpan b.width b.tile_size,
        0, tileSpan b.height b.tile_size⟩

/-- The `StaticMap` struct of `map.rs`. -/
structure StaticMap where
  url_template : String
  tools : List Tool
  bounds : BoundsBuilder
  tile_cache : Cache

/-- The `StaticMapBuilder` struct of `map.rs`. -/
structure StaticMapBuilder where
  width : Nat
  height : Nat
  padding : Nat × Nat
  zoom : Option Nat
  lat_center : Option Float
  lon_center : Option Float
  url_template : String
  tile_size : Nat
  tile_cache : Cache

/-- The `Default` impl for `StaticMapBuilder` in `map.rs`:
`Arc::new(DashMap::new())` is a fresh empty cache. -/
def StaticMapBuilder.default : StaticMapBuilder :=
  { width := 300
    height := 300
    padding := (0, 0)
    zoom := none
    lat_center := none
    lon_center := none
    url_template := "https://a.tile.osm.org/{z}/{x}/{y}.png"
    tile_size := 256
    tile_cache := [] }

/-- `StaticMapBuilder::new`, which just delegates to the `Default` impl. -/
def StaticMapBuilder.new : StaticMapBuilder :=
  StaticMapBuilder.default

/-- `StaticMapBuilder::build` from `map.rs`: forwards every option into a
`BoundsBuilder`, starts with no tools, and always returns `Ok`. -/
def StaticMapBuilder.build (b : StaticMapBuilder) : Except Error StaticMap :=
  .ok
    { url_template := b.url_template
      tools := []
      bounds :=
        { width := b.width
          height := b.height
          padding := b.padding
          zoom := b.zoom
          lat_center := b.lat_center
          lon_center := b.lon_center
          tile_size := b.tile_size }
      tile_cache := b.tile_cache }

/-- `StaticMap::add_tool` from `map.rs`: pushes onto the tool list. -/
def StaticMap.add_tool (m : StaticMap) (t : Tool) : StaticMap :=
  { m with tools := m.tools ++ [t] }

/-- The URL built per tile in `draw_base_layer`: `max_tile = 2^zoom`, both
indices are mapped through `(v + max_tile) % max_tile` (Rust `%` on `i32` is
truncated remainder, `Int.tmod`), and `{z}`, `{x}`, `{y}` are substituted by
plain text replacement. -/
def tileUrl (template : String) (zoom : Nat) (x y : Int) : String :=
  replaceStr
    (replaceStr (replaceStr template "{z}" (toString zoom))
      "{x}" (toString ((x + 2 ^ zoom).tmod (2 ^ zoom))))
    "{y}" (toString ((y + 2 ^ zoom).tmod (2 ^ zoom)))

/-- The half-open integer range `lo..hi` of Rust. -/
def intRange (lo hi : Int) : List Int :=
  (List.range (hi - lo).toNat).map (fun (i : Nat) => lo + (i : Int))

/-- The tile list built at the top of `draw_base_layer`: every `(x, y)` pair
of `x_min..x_max × y_min..y_max` with its substituted URL, `x`-major as in the
source's `flat_map`. -/
def baseTiles (template : String) (b : Bounds) : List (Int × Int × String) :=
  (intRange b.x_min b.x_max).flatMap (fun x =>
    (intRange b.y_min b.y_max).map (fun y => (x, y, tileUrl template b.zoom x y)))

/-- One cache-miss fetch episode: the URL, how many GET-and-decode attempts
were made, and the sleeps (in milliseconds) between consecutive attempts. -/
structure FetchEvent where
  url : String
  attempts : Nat
  sleeps : List Nat
deriving DecidableEq

/-- The delay iterator `Fixed::from_millis(1000).take(5)` of the `retry`
crate: five one-second delays. -/
def fixedDelays : List Nat :=
  List.replicate 5 1000

/-- The world as seen by one retry loop: the outcome of the `k`-th HTTP
GET-and-PNG-decode attempt for a given URL.  A transport failure is
`Error.TileError url`, a decode failure `Error.PngDecodingError`, exactly as
`draw_base_layer` maps them. -/
abbrev Oracle := String → Nat → Except Error Pixmap

/-- Model of `retry::retry(delays, op)`: one initial attempt, then one further
attempt per remaining delay, sleeping that delay first; when the delay
iterator is exhausted the last error is returned (the source unwraps it with
`map_err(|e| e.error)`).  Returns the result, the total number of attempts
made, and the list of sleeps performed.  `k` counts attempts already made. -/
def retryRun (op : Nat → Except Error Pixmap) : List Nat → Nat → Except Error Pixmap × Nat × List Nat
  | delays, k =>
    match op k with
    | .ok v => (.ok v, k + 1, [])
    | .error e =>
      match delays with
      | [] => (.error e, k + 1, [])
      | d :: rest =>
        let r := retryRun op rest (k + 1)
        (r.1, r.2.1, d :: r.2.2)

/-- One tile of the `par_iter` body in `draw_base_layer`: a cache hit is
cloned with no network activity; a miss runs the retry loop and, on success,
inserts the decoded image into the shared cache before returning it (the
insert sits inside the retried closure in the source; the retry loop stops at
first success, so performing it on loop exit is the same).  Returns the tile
result, the updated cache, and the fetch log. -/
def acquireTile (oracle : Oracle) (cache : Cache) (url : String) :
    Except Error Pixmap × Cache × List FetchEvent :=
  match cacheGet cache url with
  | some cached => (.ok cached, cache, [])
  | none =>
    let r := retryRun (fun k => oracle url k) fixedDelays 0
    match r.1 with
    | .ok pm => (.ok pm, cacheInsert cache url pm, [⟨url, r.2.1, r.2.2⟩])
    | .error e => (.error e, cache, [⟨url, r.2.1, r.2.2⟩])

/-- The whole `par_iter().map(..).collect()` over the tile list in its fully
sequential linearization: input order (rayon's collect preserves order), with
cache effects threaded left to right, so a later tile sees an earlier tile's
insert.  This is one particular schedule of the worker pool; it is used only
for properties that do not depend on the interleaving (per-tile outcomes,
first surfaced error, attempts per retry loop).  Cache-contention behaviour
is modelled by `acquireAllPar` below, which quantifies over schedules.
Returns the per-tile results in order, the final cache, and the concatenated
fetch log. -/
def acquireAll (oracle : Oracle) (cache : Cache) :
    List (Int × Int × String) → List (Except Error Pixmap) × Cache × List FetchEvent
  | [] => ([], cache, [])
  | t :: ts =>
    let r := acquireTile oracle cache t.2.2
    let rest := acquireAll oracle r.2.1 ts
    (r.1 :: rest.1, rest.2.1, r.2.2 ++ rest.2.2)

/-- Model of `PixmapMut::draw_pixmap` at offset `(px, py)` with the default
paint and transform: the tile's pixels land on the canvas rectangle starting
at `(px, py)`, clipped to the canvas (pixels outside the canvas function's
domain are simply never read).  Tile compositing is modelled as overwrite. -/
def drawPixmapAt (canvas : Pixmap) (px py : Int) (tile : Pixmap) : Pixmap :=
  { canvas with
    pix := fun i j =>
      if px ≤ (i : Int) ∧ (i : Int) < px + tile.width ∧
          py ≤ (j : Int) ∧ (j : Int) < py + tile.height then
        tile.pix ((i - px.toNat)) ((j - py.toNat))
      else canvas.pix i j }

/-- The final loop of `draw_base_layer`: walk `tiles.zip(tile_images)` in
order, propagating the first error (`pixmap?`), otherwise blitting each tile
at `(x_to_px x, y_to_px y)`. -/
def compositeTiles (b : Bounds) (image : Pixmap) :
    List ((Int × Int × String) × Except Error Pixmap) → Except Error Pixmap
  | [] => .ok image
  | (t, r) :: rest =>
    match r with
    | .error e => .error e
    | .ok pm => compositeTiles b (drawPixmapAt image (b.x_to_px t.1) (b.y_to_px t.2.1) pm) rest

/-- `StaticMap::draw_base_layer`: build the tile list, acquire every tile
(all of them — results are collected before any is inspected), then composite
them, stopping at the first acquisition error.  Also returns the final cache
and the fetch log. -/
def drawBaseLayer (oracle : Oracle) (template : String) (cache : Cache)
    (image : Pixmap) (b : Bounds) : Except Error Pixmap × Cache × List FetchEvent :=
  let tiles := baseTiles template b
  let a := acquireAll oracle cache tiles
  (compositeTiles b image (tiles.zip a.1), a.2.1, a.2.2)

/-- `StaticMap::render`: resolve the bounds from the builder and the tools,
allocate the canvas (`InvalidSize` when that fails), draw the base layer,
then draw every tool in registration order onto the same canvas.  Returns the
outcome together with the cache and the fetch log (empty when no acquisition
was started). -/
def render (oracle : Oracle) (m : StaticMap) : Except Error Pixmap × Cache × List FetchEvent :=
  match m.bounds.build m.tools with
  | .error e => (.error e, m.tile_cache, [])
  | .ok bounds =>
    match pixmapNew bounds.width bounds.height with
    | none => (.error .InvalidSize, m.tile_cache, [])
    | some image =>
      let b := drawBaseLayer oracle m.url_template m.tile_cache image bounds
      (b.1.map (fun base => m.tools.foldl (fun img t => t.draw bounds img) base), b.2.1, b.2.2)

/-- Total number of network attempts recorded for one URL in a fetch log. -/
def fetchCount (log : List FetchEvent) (u : String) : Nat :=
  (log.map (fun e => if e.url = u then e.attempts else 0)).sum

/-- The first error of a result list, in order — the error `draw_base_layer`
surfaces when at least one tile failed. -/
def firstError : List (Except Error Pixmap) → Option Error
  | [] => none
  | .error e :: _ => some e
  | .ok _ :: rest => firstError rest

/-- A concrete annotation that paints the color `c` over the region `r`,
leaving other pixels alone — the shape of an opaque marker. -/
def overwriteTool (r : Nat → Nat → Bool) (c : Nat) : Tool :=
  ⟨fun _ img => { img with pix := fun i j => if r i j then c else img.pix i j }⟩

/-- The claim's reading of the URL construction (claim C2), following the
spec's words: tile x "is taken modulo `2^zoom`", tile y "is used as computed"
with no wraparound applied. -/
def tileUrlClaimed (template : String) (zoom : Nat) (x y : Int) : String :=
  replaceStr
    (replaceStr (replaceStr template "{z}" (toString zoom))
      "{x}" (toString (x % (2 ^ zoom : Int))))
    "{y}" (toString y)

/-- The URL construction with both indices reduced by true (Euclidean)
modulo, used to state what the source actually computes on the in-range
domain. -/
def tileUrlWrapped (template : String) (zoom : Nat) (x y : Int) : String :=
  replaceStr
    (replaceStr (replaceStr template "{z}" (toString zoom))
      "{x}" (toString (x % (2 ^ zoom : Int))))
    "{y}" (toString (y % (2 ^ zoom : Int)))

/-- Soundness of a lookup view for one parallel acquisition pass starting
from cache `c0` over tile list `ts`: tile `i`'s `DashMap::get` returns
`look i`.  A key already present in `c0` must be found (entries are never
removed), and a hit on a key absent from `c0` can only be the insert made
concurrently by another tile of the same pass with the same URL, i.e. one
whose own lookup missed.  Every interleaving of the 24-thread pool of
`draw_base_layer` gives rise to such a view: `startLook` below is the fully
concurrent schedule, and the schedule threading every insert into later
lookups is the fully sequential one. -/
def LookSound (c0 : Cache) (ts : List (Int × Int × String))
    (look : Nat → Option Pixmap) : Prop :=
  ∀ i t, ts.get? i = some t →
    ((cacheGet c0 t.2.2).isSome = true → (look i).isSome = true) ∧
    ((look i).isSome = true → (cacheGet c0 t.2.2).isSome = true ∨
      ∃ j t2, ts.get? j = some t2 ∧ t2.2.2 = t.2.2 ∧ look j = none)

/-- The `par_iter().map(..).collect()` of `draw_base_layer`, parametric in
the interleaving of the worker pool: tile `i`'s cache read is `look i`
rather than a threaded cache state, so concurrent misses on one URL each run
their own retry loop and fetch independently, exactly as the 24-thread pool
permits ("no per-key exclusivity").  Every successful fetch is inserted into
the shared cache; inserts are collected in tile order, which is immaterial
for presence, and duplicates of one URL fetch the same first-attempt value,
so which concurrent write wins is also immaterial ("last write wins").
`i` is the index of the current tile, `c` the insert accumulator seeded with
the cache at pass start. -/
def acquireAllPar (oracle : Oracle) (look : Nat → Option Pixmap) :
    Nat → Cache → List (Int × Int × String) →
      List (Except Error Pixmap) × Cache × List FetchEvent
  | _, c, [] => ([], c, [])
  | i, c, t :: ts =>
    match look i with
    | some cached =>
      let rest := acquireAllPar oracle look (i + 1) c ts
      (.ok cached :: rest.1, rest.2.1, rest.2.2)
    | none =>
      let r := retryRun (fun k => oracle t.2.2 k) fixedDelays 0
      let c2 :=
        match r.1 with
        | .ok pm => cacheInsert c t.2.2 pm
        | .error _ => c
      let rest := acquireAllPar oracle look (i + 1) c2 ts
      (r.1 :: rest.1, rest.2.1, ⟨t.2.2, r.2.1, r.2.2⟩ :: rest.2.2)

/-- `draw_base_layer` over the interleaving-parametric acquisition pass. -/
def drawBaseLayerPar (oracle : Oracle) (look : Nat → Option Pixmap)
    (template : String) (cache : Cache) (image : Pixmap) (b : Bounds) :
    Except Error Pixmap × Cache × List FetchEvent :=
  let tiles := baseTiles template b
  let a := acquireAllPar oracle look 0 cache tiles
  (compositeTiles b image (tiles.zip a.1), a.2.1, a.2.2)

/-- `render` over the interleaving-parametric acquisition pass; the stages
before and after acquisition are the same as in `render`. -/
def renderPar (oracle : Oracle) (look : Nat → Option Pixmap) (m : StaticMap) :
    Except Error Pixmap × Cache × List FetchEvent :=
  match m.bounds.build m.tools with
  | .error e => (.error e, m.tile_cache, [])
  | .ok bounds =>
    match pixmapNew bounds.width bounds.height with
    | none => (.error .InvalidSize, m.tile_cache, [])
    | some image =>
      let b := drawBaseLayerPar oracle look m.url_template m.tile_cache image bounds
      (b.1.map (fun base => m.tools.foldl (fun img t => t.draw bounds img) base), b.2.1, b.2.2)

/-- The tile list a render of `m` enumerates (empty when the view cannot be
resolved); the list depends only on the configuration, not on the cache. -/
def tilesOf (m : StaticMap) : List (Int × Int × String) :=
  match m.bounds.build m.tools with
  | .error _ => []
  | .ok b => baseTiles m.url_template b

/-- The fully concurrent schedule: every worker's lookup happens before any
worker's insert lands, so each tile sees exactly the cache as of pass start.
Realizable by the 24-thread pool whenever at most 24 tiles are enumerated. -/
def startLook (c : Cache) (ts : List (Int × Int × String)) : Nat → Option Pixmap :=
  fun i =>
    match ts.get? i with
    | some t => cacheGet c t.2.2
    | none => none

/-- Projection of a render outcome onto its error, for decidable statements
about concrete runs (the pixel buffer itself has no decidable equality). -/
def errorOf : Except Error Pixmap → Option Error
  | .error e => some e
  | .ok _ => none

/-! Concrete objects shared by witnesses and counterexamples. -/

/-- A concrete opaque tile image. -/
def okPix : Pixmap :=
  ⟨256, 256, fun _ _ => 7⟩

/-- A world in which every GET-and-decode attempt succeeds. -/
def okOracle : Oracle :=
  fun _ _ => .ok okPix

/-- A world in which every GET fails (a transport error carrying the URL),
on every attempt. -/
def failOracle : Oracle :=
  fun u _ => .error (.TileError u)

/-- A small concrete builder: explicit zoom 0, a 1×1 canvas, a short URL
template. -/
def exBuilder : StaticMapBuilder :=
  { StaticMapBuilder.default with
    width := 1
    height := 1
    zoom := some 0
    url_template := "{z}-{x}-{y}" }

/-- The map `exBuilder` builds. -/
def exMap : StaticMap :=
  { url_template := "{z}-{x}-{y}"
    tools := []
    bounds :=
      { width := 1
        height := 1
        padding := (0, 0)
        zoom := some 0
        lat_center := none
        lon_center := none
        tile_size := 256 }
    tile_cache := [] }

/-! Helper lemmas. -/

theorem wrapShift (x M : Int) (hM : 0 ≤ M) (hx : -M ≤ x) :
    (x + M).tmod M = x % M := by
  rw [Int.tmod_eq_emod (by omega) hM]
  have h1 := Int.add_mul_emod_self_left x M 1
  simp only [Int.mul_one] at h1
  exact h1

theorem retryRun_ok (op : Nat → Except Error Pixmap) (delays : List Nat) (k : Nat)
    (pm : Pixmap) (h : op k = .ok pm) :
    retryRun op delays k = (.ok pm, k + 1, []) := by
  cases delays <;> simp [retryRun, h]

theorem retryRun_fail (op : Nat → Except Error Pixmap) (e : Error)
    (h : ∀ k, op k = .error e) :
    ∀ (delays : List Nat) (k : Nat),
      retryRun op delays k = (.error e, k + delays.length + 1, delays)
  | [], k => by simp [retryRun, h k]
  | d :: rest, k => by
    have ih := retryRun_fail op e h rest (k + 1)
    simp [retryRun, h k, ih]
    omega

theorem cacheGet_insert (c : Cache) (u v : String) (pm : Pixmap) :
    cacheGet (cacheInsert c u pm) v = if u = v then some pm else cacheGet c v := by
  simp [cacheGet, cacheInsert]

theorem acquireTile_hit (oracle : Oracle) (cache : Cache) (url : String) (pm : Pixmap)
    (h : cacheGet cache url = some pm) :
    acquireTile oracle cache url = (.ok pm, cache, []) := by
  simp [acquireTile, h]

theorem acquireTile_miss_ok (oracle : Oracle) (cache : Cache) (url : String) (pm : Pixmap)
    (hmiss : cacheGet cache url = none) (hok : oracle url 0 = .ok pm) :
    acquireTile oracle cache url = (.ok pm, cacheInsert cache url pm, [⟨url, 1, []⟩]) := by
  simp [acquireTile, hmiss, retryRun_ok _ fixedDelays 0 pm hok]

theorem acquireTile_miss_fail (oracle : Oracle) (cache : Cache) (url : String) (e : Error)
    (hmiss : cacheGet cache url = none) (hfail : ∀ k, oracle url k = .error e) :
    acquireTile oracle cache url = (.error e, cache, [⟨url, 6, fixedDelays⟩]) := by
  have h := retryRun_fail (fun k => oracle url k) e (fun k => hfail k) fixedDelays 0
  simp [fixedDelays] at h
  simp [acquireTile, hmiss, fixedDelays, h]

theorem acquireAll_length (oracle : Oracle) :
    ∀ (ts : List (Int × Int × String)) (cache : Cache),
      (acquireAll oracle cache ts).1.length = ts.length
  | [], _ => rfl
  | _ :: ts, cache => by
    simp [acquireAll, acquireAll_length oracle ts]

theorem compositeTiles_error (b : Bounds) (e : Error) :
    ∀ (ts : List (Int × Int × String)) (rs : List (Except Error Pixmap)) (img : Pixmap),
      ts.length = rs.length → firstError rs = some e →
      compositeTiles b img (ts.zip rs) = .error e
  | [], rs, img, hlen, hfe => by
    cases rs with
    | nil => simp [firstError] at hfe
    | cons r rs => simp at hlen
  | t :: ts, rs, img, hlen, hfe => by
    cases rs with
    | nil => simp at hlen
    | cons r rs =>
      cases r with
      | error e₂ =>
        simp [firstError] at hfe
        simp [compositeTiles, hfe]
      | ok pm =>
        simp [firstError] at hfe
        simp at hlen
        simp [compositeTiles]
        exact compositeTiles_error b e ts rs _ hlen hfe

theorem compositeTiles_ok (b : Bounds) :
    ∀ (ts : List (Int × Int × String)) (rs : List (Except Error Pixmap)) (img : Pixmap),
      (∀ r ∈ rs, r.isOk = true) →
      ∃ final, compositeTiles b img (ts.zip rs) = .ok final
  | [], _, img, _ => ⟨img, rfl⟩
  | _ :: _, [], img, _ => ⟨img, rfl⟩
  | t :: ts, r :: rs, img, hok => by
    cases r with
    | error e => exact absurd (hok _ (List.mem_cons_self _ _)) (by simp [Except.isOk, Except.toBool])
    | ok pm =>
      have := compositeTiles_ok b ts rs
        (drawPixmapAt img (b.x_to_px t.1) (b.y_to_px t.2.1) pm)
        (fun r hr => hok r (List.mem_cons_of_mem _ hr))
      simpa [compositeTiles] using this

theorem acquireAll_results_ok (oracle : Oracle) (hok : ∀ u k, (oracle u k).isOk = true) :
    ∀ (ts : List (Int × Int × String)) (cache : Cache),
      ∀ r ∈ (acquireAll oracle cache ts).1, r.isOk = true
  | t :: ts, cache, r, hr => by
    have hmem := hr
    simp only [acquireAll] at hmem
    rcases List.mem_cons.mp hmem with h1 | h2
    · subst h1
      match hcg : cacheGet cache t.2.2 with
      | some pm => simp [acquireTile_hit oracle cache t.2.2 pm hcg, Except.isOk, Except.toBool]
      | none =>
        have h0 := hok t.2.2 0
        match ho : oracle t.2.2 0 with
        | .ok pm =>
          simp [acquireTile_miss_ok oracle cache t.2.2 pm hcg ho, Except.isOk, Except.toBool]
        | .error e => rw [ho] at h0; simp [Except.isOk, Except.toBool] at h0
    · exact acquireAll_results_ok oracle hok ts _ r h2

/-! Claim theorems. -/

/-- C9. A builder created with no options set has exactly the documented
defaults: width 300, height 300, padding (0, 0), no zoom, no center
latitude/longitude, the OSM URL template, tile size 256 and a fresh empty
tile cache. -/
theorem claim9_builder_defaults :
    StaticMapBuilder.default.width = 300 ∧
    StaticMapBuilder.default.height = 300 ∧
    StaticMapBuilder.default.padding = (0, 0) ∧
    StaticMapBuilder.default.zoom = none ∧
    StaticMapBuilder.default.lat_center = none ∧
    StaticMapBuilder.default.lon_center = none ∧
    StaticMapBuilder.default.url_template = "https://a.tile.osm.org/{z}/{x}/{y}.png" ∧
    StaticMapBuilder.default.tile_size = 256 ∧
    StaticMapBuilder.default.tile_cache = [] :=
  ⟨rfl, rfl, rfl, rfl, rfl, rfl, rfl, rfl, rfl⟩

/-- C10. `StaticMapBuilder::build` returns `Ok` for every configuration —
including zero width or height, an unset zoom, and a URL template lacking the
placeholders; no configuration error is ever reported at build time. -/
theorem claim10_build_always_ok (b : StaticMapBuilder) :
    ∃ m, StaticMapBuilder.build b = .ok m :=
  ⟨_, rfl⟩

/-- C4. With no configured zoom and no annotations, render fails with
`MissingZoom` as a typed result, and the fetch log is empty: the failure
precedes any tile fetch. -/
theorem claim4_missing_zoom (oracle : Oracle) (m : StaticMap)
    (hz : m.bounds.zoom = none) (ht : m.tools = []) :
    render oracle m = (.error .MissingZoom, m.tile_cache, []) := by
  simp [render, BoundsBuilder.build, hz, ht]

/-- C4 witness: the default builder's map (no zoom, no tools) at a concrete
oracle. -/
theorem claim4_missing_zoom_witness :
    (StaticMapBuilder.default.width = 300 → StaticMapBuilder.default.zoom = none) ∧
    render okOracle
      { url_template := StaticMapBuilder.default.url_template
        tools := []
        bounds :=
          { width := 300, height := 300, padding := (0, 0), zoom := none,
            lat_center := none, lon_center := none, tile_size := 256 }
        tile_cache := [] } =
      (.error .MissingZoom, [], []) :=
  ⟨fun _ => rfl, claim4_missing_zoom okOracle _ rfl rfl⟩

/-- C8. When the resolved canvas width or height is zero the pixel buffer
cannot be allocated: render fails with `InvalidSize` and the fetch log is
empty, so no tile acquisition is performed. -/
theorem claim8_invalid_size (oracle : Oracle) (m : StaticMap) (bounds : Bounds)
    (hb : m.bounds.build m.tools = .ok bounds)
    (hwh : bounds.width = 0 ∨ bounds.height = 0) :
    render oracle m = (.error .InvalidSize, m.tile_cache, []) := by
  simp [render, hb, pixmapNew, hwh]

/-- C8 witness: a zero-width builder with explicit zoom. -/
theorem claim8_invalid_size_witness :
    ({ exBuilder with width := 0 }.build.isOk = true) ∧
    render okOracle
      { url_template := "{z}-{x}-{y}"
        tools := []
        bounds :=
          { width := 0, height := 1, padding := (0, 0), zoom := some 0,
            lat_center := none, lon_center := none, tile_size := 256 }
        tile_cache := [] } =
      (.error .InvalidSize, [], []) :=
  ⟨rfl, claim8_invalid_size okOracle _
    ⟨0, 1, 0, 256, 0, tileSpan 0 256, 0, tileSpan 1 256⟩ rfl (Or.inl rfl)⟩

/-- C2, counterexample to the claim as stated: at zoom 1 the tile y index 3
is wrapped to 1 before substitution, so the produced URL differs from the
claim's reading in which y is substituted as computed. -/
theorem claim2_y_unwrapped_counterexample :
    tileUrl "{x}/{y}" 1 0 3 ≠ tileUrlClaimed "{x}/{y}" 1 0 3 := by
  decide

/-- C2 as amended: both the x and the y index are passed through
`(v + 2^zoom) % 2^zoom` before substitution; for indices at least `-2^zoom`
(one westward/northward wrap) this is the true modulo reduction, applied to y
exactly as to x. -/
theorem claim2_both_wrapped (template : String) (zoom : Nat) (x y : Int)
    (hx : -(2 ^ zoom : Int) ≤ x) (hy : -(2 ^ zoom : Int) ≤ y) :
    tileUrl template zoom x y = tileUrlWrapped template zoom x y := by
  have hM : (0 : Int) ≤ 2 ^ zoom := by positivity
  unfold tileUrl tileUrlWrapped
  rw [wrapShift x _ hM hx, wrapShift y _ hM hy]

/-- C2 witness: zoom 1, x = -1, y = 3. -/
theorem claim2_both_wrapped_witness :
    (-(2 ^ 1 : Int) ≤ -1) ∧ tileUrl "{x}/{y}" 1 (-1) 3 = tileUrlWrapped "{x}/{y}" 1 (-1) 3 :=
  ⟨by decide, claim2_both_wrapped "{x}/{y}" 1 (-1) 3 (by decide) (by decide)⟩

/-- C6, counterexample to the claim as stated: at zoom 2 the x indices -5 and
-5 + 4 produce different substituted URLs ("-1" against "3"), because Rust's
`%` is a truncated remainder and the source adds only one period before
reducing. -/
theorem claim6_wraparound_counterexample :
    tileUrl "{x}" 2 (-5) 0 ≠ tileUrl "{x}" 2 (-5 + 2 ^ 2) 0 := by
  decide

/-- C6 as amended: for every zoom z, tile y and tile x at least `-2^z`, the
fully substituted URL for x equals the one for x + 2^z. -/
theorem claim6_wraparound (template : String) (zoom : Nat) (x y : Int)
    (hx : -(2 ^ zoom : Int) ≤ x) :
    tileUrl template zoom x y = tileUrl template zoom (x + 2 ^ zoom) y := by
  have hM : (0 : Int) ≤ 2 ^ zoom := by positivity
  unfold tileUrl
  rw [wrapShift x _ hM hx, wrapShift (x + 2 ^ zoom) _ hM (by omega)]
  have h2 := Int.add_mul_emod_self_left x ((2 : Int) ^ zoom) 1
  simp only [Int.mul_one] at h2
  rw [h2]

/-- C6 witness: zoom 2, x = -1, y = 0. -/
theorem claim6_wraparound_witness :
    (-(2 ^ 2 : Int) ≤ -1) ∧ tileUrl "{x}" 2 (-1) 0 = tileUrl "{x}" 2 (-1 + 2 ^ 2) 0 :=
  ⟨by decide, claim6_wraparound "{x}" 2 (-1) 0 (by decide)⟩

theorem intRange_head (lo hi : Int) (h : lo < hi) :
    ∃ rest, intRange lo hi = lo :: rest := by
  have h1 : (hi - lo).toNat = (hi - lo - 1).toNat + 1 := by omega
  refine ⟨(List.map Nat.succ (List.range (hi - lo - 1).toNat)).map
    (fun (i : Nat) => lo + (i : Int)), ?_⟩
  unfold intRange
  rw [h1, List.range_succ_eq_map]
  simp

theorem baseTiles_head (template : String) (b : Bounds)
    (hx : b.x_min < b.x_max) (hy : b.y_min < b.y_max) :
    ∃ rest, baseTiles template b =
      (b.x_min, b.y_min, tileUrl template b.zoom b.x_min b.y_min) :: rest := by
  obtain ⟨rx, hrx⟩ := intRange_head _ _ hx
  obtain ⟨ry, hry⟩ := intRange_head _ _ hy
  simp only [baseTiles, hrx, hry, List.flatMap_cons, List.map_cons, List.cons_append]
  exact ⟨_, rfl⟩

/-- C1 as amended: a tile URL whose HTTP-GET-and-decode step always fails
(here, the URL of the first enumerated tile) makes the render fail with a
`TileError` carrying that URL, after exactly 6 attempts — the initial attempt
plus the 5 retries of the budget — with a fixed 1000 ms sleep between each
pair of consecutive attempts. -/
theorem claim1_retry_exhaustion (oracle : Oracle) (m : StaticMap) (z : Nat)
    (hz : m.bounds.zoom = some z)
    (hw : 0 < m.bounds.width) (hh : 0 < m.bounds.height)
    (hmiss : cacheGet m.tile_cache (tileUrl m.url_template z 0 0) = none)
    (hfail : ∀ k, oracle (tileUrl m.url_template z 0 0) k =
      .error (.TileError (tileUrl m.url_template z 0 0))) :
    (render oracle m).1 = .error (.TileError (tileUrl m.url_template z 0 0)) ∧
    (render oracle m).2.2.head? =
      some ⟨tileUrl m.url_template z 0 0, 6, List.replicate 5 1000⟩ := by
  have hbuild : m.bounds.build m.tools =
      .ok ⟨m.bounds.width, m.bounds.height, z, m.bounds.tile_size, 0,
        tileSpan m.bounds.width m.bounds.tile_size, 0,
        tileSpan m.bounds.height m.bounds.tile_size⟩ := by
    simp [BoundsBuilder.build, hz]
  have hw0 : m.bounds.width ≠ 0 := by omega
  have hh0 : m.bounds.height ≠ 0 := by omega
  have hpix : pixmapNew m.bounds.width m.bounds.height =
      some ⟨m.bounds.width, m.bounds.height, fun _ _ => 0⟩ := by
    simp [pixmapNew, hw0, hh0]
  have hxlt : (0 : Int) < tileSpan m.bounds.width m.bounds.tile_size := by
    unfold tileSpan
    have h2 : 0 < m.bounds.width / m.bounds.tile_size + 2 :=
      Nat.add_pos_right _ (by norm_num)
    exact_mod_cast h2
  have hylt : (0 : Int) < tileSpan m.bounds.height m.bounds.tile_size := by
    unfold tileSpan
    have h2 : 0 < m.bounds.height / m.bounds.tile_size + 2 :=
      Nat.add_pos_right _ (by norm_num)
    exact_mod_cast h2
  obtain ⟨rest, hts⟩ := baseTiles_head m.url_template
    ⟨m.bounds.width, m.bounds.height, z, m.bounds.tile_size, 0,
      tileSpan m.bounds.width m.bounds.tile_size, 0,
      tileSpan m.bounds.height m.bounds.tile_size⟩ hxlt hylt
  have hacq := acquireTile_miss_fail oracle m.tile_cache (tileUrl m.url_template z 0 0)
    (.TileError (tileUrl m.url_template z 0 0)) hmiss hfail
  simp only [render, hbuild, hpix, drawBaseLayer, hts, acquireAll, hacq, compositeTiles]
  simp [fixedDelays, Except.map]

/-- C3. When at least one tile of the enumerated range fails to be acquired
after the full retry budget, the whole render returns the first such tile's
error and produces no pixel buffer at all. -/
theorem claim3_no_partial (oracle : Oracle) (m : StaticMap) (bounds : Bounds) (e : Error)
    (hb : m.bounds.build m.tools = .ok bounds)
    (hw : 0 < bounds.width) (hh : 0 < bounds.height)
    (hfail : firstError
      (acquireAll oracle m.tile_cache (baseTiles m.url_template bounds)).1 = some e) :
    (render oracle m).1 = .error e ∧ ∀ pm, (render oracle m).1 ≠ .ok pm := by
  have hw0 : bounds.width ≠ 0 := by omega
  have hh0 : bounds.height ≠ 0 := by omega
  have hpix : pixmapNew bounds.width bounds.height =
      some ⟨bounds.width, bounds.height, fun _ _ => 0⟩ := by
    simp [pixmapNew, hw0, hh0]
  have hlen : (baseTiles m.url_template bounds).length =
      (acquireAll oracle m.tile_cache (baseTiles m.url_template bounds)).1.length :=
    (acquireAll_length oracle _ _).symm
  have hcomp := compositeTiles_error bounds e (baseTiles m.url_template bounds)
    (acquireAll oracle m.tile_cache (baseTiles m.url_template bounds)).1
    ⟨bounds.width, bounds.height, fun _ _ => 0⟩ hlen hfail
  have hmain : (render oracle m).1 = .error e := by
    simp only [render, hb, hpix, drawBaseLayer, hcomp, Except.map]
  exact ⟨hmain, fun pm h => by rw [hmain] at h; cases h⟩

/-- C3 witness: every fetch fails on a concrete 1×1 map at zoom 0, whose
four enumerated tiles all share the URL "0-0-0". -/
theorem claim3_no_partial_witness :
    (0 < (1 : Nat)) ∧
    ((render failOracle exMap).1 = .error (.TileError "0-0-0") ∧
      ∀ pm, (render failOracle exMap).1 ≠ .ok pm) :=
  ⟨by decide, claim3_no_partial failOracle exMap
    ⟨1, 1, 0, 256, 0, tileSpan 1 256, 0, tileSpan 1 256⟩ (.TileError "0-0-0") rfl
    (by decide) (by decide) (by decide)⟩

/-- C1 witness: the always-failing world on the concrete map `exMap`. -/
theorem claim1_retry_exhaustion_witness :
    (failOracle (tileUrl "{z}-{x}-{y}" 0 0 0) 0 =
      .error (.TileError (tileUrl "{z}-{x}-{y}" 0 0 0))) ∧
    ((render failOracle exMap).1 = .error (.TileError (tileUrl "{z}-{x}-{y}" 0 0 0)) ∧
      (render failOracle exMap).2.2.head? =
        some ⟨tileUrl "{z}-{x}-{y}" 0 0 0, 6, List.replicate 5 1000⟩) :=
  ⟨rfl, claim1_retry_exhaustion failOracle exMap 0 rfl (by decide) (by decide) rfl
    (fun _ => rfl)⟩

/-- C1, counterexample to the claim as stated: on a concrete always-failing
endpoint the render fails with the `TileError` for the (repeated) tile URL
"0-0-0", but the first retry episode recorded 6 attempts, not the claimed 5. -/
theorem claim1_five_attempts_counterexample :
    errorOf (render failOracle exMap).1 = some (.TileError "0-0-0") ∧
    (render failOracle exMap).2.2.head? =
      some ⟨"0-0-0", 6, [1000, 1000, 1000, 1000, 1000]⟩ ∧
    (6 : Nat) ≠ 5 :=
  ⟨by decide, by decide, by decide⟩

/-- C7. After a successful base layer, the tools are drawn strictly in
registration order onto the same canvas: with tools `[A, B]` the rendered
image is `B.draw (A.draw base)` for the base-layer output `base`, and when
both tools are opaque region painters, every pixel in the overlap of the two
regions carries B's color. -/
theorem claim7_layering (oracle : Oracle) (m : StaticMap) (bounds : Bounds) (A B : Tool)
    (hb : m.bounds.build m.tools = .ok bounds)
    (hw : 0 < bounds.width) (hh : 0 < bounds.height)
    (hok : ∀ u k, (oracle u k).isOk = true)
    (htools : m.tools = [A, B]) :
    ∃ base,
      (drawBaseLayer oracle m.url_template m.tile_cache
        ⟨bounds.width, bounds.height, fun _ _ => 0⟩ bounds).1 = .ok base ∧
      (render oracle m).1 = .ok (B.draw bounds (A.draw bounds base)) ∧
      (∀ rA cA rB cB, A = overwriteTool rA cA → B = overwriteTool rB cB →
        ∀ i j, rA i j = true → rB i j = true →
          (B.draw bounds (A.draw bounds base)).pix i j = cB) := by
  have hw0 : bounds.width ≠ 0 := by omega
  have hh0 : bounds.height ≠ 0 := by omega
  have hpix : pixmapNew bounds.width bounds.height =
      some ⟨bounds.width, bounds.height, fun _ _ => 0⟩ := by
    simp [pixmapNew, hw0, hh0]
  have hallok := acquireAll_results_ok oracle hok (baseTiles m.url_template bounds) m.tile_cache
  obtain ⟨base, hbase⟩ := compositeTiles_ok bounds (baseTiles m.url_template bounds)
    (acquireAll oracle m.tile_cache (baseTiles m.url_template bounds)).1
    ⟨bounds.width, bounds.height, fun _ _ => 0⟩ hallok
  refine ⟨base, ?_, ?_, ?_⟩
  · simp only [drawBaseLayer]
    exact hbase
  · simp only [render, hb, hpix, drawBaseLayer, hbase]
    simp [htools, List.foldl, Except.map]
  · rintro rA cA rB cB rfl rfl i j hA hB
    simp [overwriteTool, hB]

/-- Concrete painting tools for the C7 witness. -/
def toolA : Tool :=
  overwriteTool (fun i _ => i < 2) 1

/-- Concrete painting tool B for the C7 witness. -/
def toolB : Tool :=
  overwriteTool (fun i j => i + j < 3) 2

/-- The concrete map with tools [A, B] for the C7 witness. -/
def exMapTools : StaticMap :=
  { exMap with tools := [toolA, toolB] }

/-- C7 witness: the concrete two-tool map in the always-succeeding world. -/
theorem claim7_layering_witness :
    (∀ u k, (okOracle u k).isOk = true) ∧
    ∃ base,
      (drawBaseLayer okOracle exMapTools.url_template exMapTools.tile_cache
        ⟨1, 1, fun _ _ => 0⟩
        ⟨1, 1, 0, 256, 0, tileSpan 1 256, 0, tileSpan 1 256⟩).1 = .ok base ∧
      (render okOracle exMapTools).1 =
        .ok (toolB.draw ⟨1, 1, 0, 256, 0, tileSpan 1 256, 0, tileSpan 1 256⟩
          (toolA.draw ⟨1, 1, 0, 256, 0, tileSpan 1 256, 0, tileSpan 1 256⟩ base)) ∧
      (∀ rA cA rB cB, toolA = overwriteTool rA cA → toolB = overwriteTool rB cB →
        ∀ i j, rA i j = true → rB i j = true →
          (toolB.draw ⟨1, 1, 0, 256, 0, tileSpan 1 256, 0, tileSpan 1 256⟩
            (toolA.draw ⟨1, 1, 0, 256, 0, tileSpan 1 256, 0, tileSpan 1 256⟩ base)).pix i j = cB) :=
  ⟨fun _ _ => rfl,
    claim7_layering okOracle exMapTools
      ⟨1, 1, 0, 256, 0, tileSpan 1 256, 0, tileSpan 1 256⟩ toolA toolB rfl
      (by decide) (by decide) (fun _ _ => rfl) rfl⟩

theorem fetchCount_append (l1 l2 : List FetchEvent) (u : String) :
    fetchCount (l1 ++ l2) u = fetchCount l1 u + fetchCount l2 u := by
  simp [fetchCount]

theorem fetchCount_cons (e : FetchEvent) (l : List FetchEvent) (u : String) :
    fetchCount (e :: l) u = (if e.url = u then e.attempts else 0) + fetchCount l u := by
  simp [fetchCount]

theorem fetchCount_eq_zero (l : List FetchEvent) (u : String)
    (h : ∀ e ∈ l, e.url ≠ u) : fetchCount l u = 0 := by
  induction l with
  | nil => rfl
  | cons e l ih =>
    rw [fetchCount_cons, if_neg (h e (List.mem_cons_self e l)), Nat.zero_add]
    exact ih (fun e2 hm => h e2 (List.mem_cons_of_mem _ hm))

theorem acquireAllPar_not_fetched (oracle : Oracle) (look : Nat → Option Pixmap) (u : String) :
    ∀ (ts : List (Int × Int × String)) (i0 : Nat) (c : Cache),
      (∀ j t, ts.get? j = some t → t.2.2 = u → (look (i0 + j)).isSome = true) →
      ∀ e ∈ (acquireAllPar oracle look i0 c ts).2.2, e.url ≠ u
  | [], i0, c, hlook => by simp [acquireAllPar]
  | t :: ts, i0, c, hlook => by
    have hshift : ∀ j t2, ts.get? j = some t2 → t2.2.2 = u →
        (look (i0 + 1 + j)).isSome = true := by
      intro j t2 hj ht2
      have h5 := hlook (j + 1) t2 (by simpa using hj) ht2
      rwa [show i0 + (j + 1) = i0 + 1 + j by omega] at h5
    intro e he
    cases hl : look i0 with
    | some cached =>
      simp only [acquireAllPar, hl] at he
      exact acquireAllPar_not_fetched oracle look u ts (i0 + 1) c hshift e he
    | none =>
      simp only [acquireAllPar, hl] at he
      rcases List.mem_cons.mp he with h1 | h2
      · subst h1
        intro hcon
        have h5 := hlook 0 t rfl hcon
        rw [Nat.add_zero, hl] at h5
        simp at h5
      · exact acquireAllPar_not_fetched oracle look u ts (i0 + 1) _ hshift e h2

theorem acquireAllPar_cache_mono (oracle : Oracle) (look : Nat → Option Pixmap) (u : String) :
    ∀ (ts : List (Int × Int × String)) (i0 : Nat) (c : Cache),
      (cacheGet c u).isSome = true →
      (cacheGet (acquireAllPar oracle look i0 c ts).2.1 u).isSome = true
  | [], i0, c, h => by simpa [acquireAllPar] using h
  | t :: ts, i0, c, h => by
    cases hl : look i0 with
    | some cached =>
      simp only [acquireAllPar, hl]
      exact acquireAllPar_cache_mono oracle look u ts (i0 + 1) c h
    | none =>
      simp only [acquireAllPar, hl]
      cases hr : (retryRun (fun k => oracle t.2.2 k) fixedDelays 0).1 with
      | ok pm =>
        simp only [hr]
        refine acquireAllPar_cache_mono oracle look u ts (i0 + 1) _ ?_
        rw [cacheGet_insert]
        by_cases ht : t.2.2 = u
        · simp [ht]
        · simp [ht, h]
      | error e =>
        simp only [hr]
        exact acquireAllPar_cache_mono oracle look u ts (i0 + 1) c h

theorem acquireAllPar_log_inserted (oracle : Oracle)
    (hok : ∀ u k, (oracle u k).isOk = true) (look : Nat → Option Pixmap) :
    ∀ (ts : List (Int × Int × String)) (i0 : Nat) (c : Cache),
      ∀ e ∈ (acquireAllPar oracle look i0 c ts).2.2,
        (cacheGet (acquireAllPar oracle look i0 c ts).2.1 e.url).isSome = true
  | [], i0, c => by simp [acquireAllPar]
  | t :: ts, i0, c => by
    intro e he
    cases hl : look i0 with
    | some cached =>
      simp only [acquireAllPar, hl] at he ⊢
      exact acquireAllPar_log_inserted oracle hok look ts (i0 + 1) c e he
    | none =>
      have h0 := hok t.2.2 0
      match ho : oracle t.2.2 0 with
      | .error e2 => rw [ho] at h0; simp [Except.isOk, Except.toBool] at h0
      | .ok pm =>
        have hr := retryRun_ok (fun k => oracle t.2.2 k) fixedDelays 0 pm ho
        simp only [acquireAllPar, hl, hr] at he ⊢
        rcases List.mem_cons.mp he with h1 | h2
        · rw [h1]
          refine acquireAllPar_cache_mono oracle look _ ts (i0 + 1) _ ?_
          rw [cacheGet_insert]
          simp
        · exact acquireAllPar_log_inserted oracle hok look ts (i0 + 1) _ e h2

theorem acquireAllPar_miss_inserted (oracle : Oracle)
    (hok : ∀ u k, (oracle u k).isOk = true) (look : Nat → Option Pixmap) :
    ∀ (ts : List (Int × Int × String)) (i0 : Nat) (c : Cache) (j : Nat)
      (t : Int × Int × String),
      ts.get? j = some t → look (i0 + j) = none →
      (cacheGet (acquireAllPar oracle look i0 c ts).2.1 t.2.2).isSome = true
  | [], _, _, j, t, hj, _ => by simp at hj
  | t0 :: ts, i0, c, j, t, hj, hl => by
    cases j with
    | zero =>
      have ht : t0 = t := by simpa using hj
      subst ht
      have hl0 : look i0 = none := by rwa [Nat.add_zero] at hl
      have h0 := hok t0.2.2 0
      match ho : oracle t0.2.2 0 with
      | .error e2 => rw [ho] at h0; simp [Except.isOk, Except.toBool] at h0
      | .ok pm =>
        have hr := retryRun_ok (fun k => oracle t0.2.2 k) fixedDelays 0 pm ho
        simp only [acquireAllPar, hl0, hr]
        refine acquireAllPar_cache_mono oracle look t0.2.2 ts (i0 + 1) _ ?_
        rw [cacheGet_insert]
        simp
    | succ j2 =>
      have hj2 : ts.get? j2 = some t := by simpa using hj
      have hl2 : look (i0 + 1 + j2) = none := by
        rwa [show i0 + 1 + j2 = i0 + (j2 + 1) by omega]
      cases hl0 : look i0 with
      | some cached =>
        simp only [acquireAllPar, hl0]
        exact acquireAllPar_miss_inserted oracle hok look ts (i0 + 1) c j2 t hj2 hl2
      | none =>
        simp only [acquireAllPar, hl0]
        cases hr : (retryRun (fun k => oracle t0.2.2 k) fixedDelays 0).1 with
        | ok pm =>
          simp only [hr]
          exact acquireAllPar_miss_inserted oracle hok look ts (i0 + 1) _ j2 t hj2 hl2
        | error e2 =>
          simp only [hr]
          exact acquireAllPar_miss_inserted oracle hok look ts (i0 + 1) c j2 t hj2 hl2

theorem acquireAllPar_all_cached (oracle : Oracle)
    (hok : ∀ u k, (oracle u k).isOk = true) (look : Nat → Option Pixmap)
    (c0 : Cache) (ts : List (Int × Int × String))
    (hsound : LookSound c0 ts look) :
    ∀ i t, ts.get? i = some t →
      (cacheGet (acquireAllPar oracle look 0 c0 ts).2.1 t.2.2).isSome = true := by
  intro i t hi
  cases hl : look i with
  | none =>
    exact acquireAllPar_miss_inserted oracle hok look ts 0 c0 i t hi (by rwa [Nat.zero_add])
  | some cached =>
    have hs := (hsound i t hi).2 (by rw [hl]; rfl)
    rcases hs with hc0 | ⟨j, t2, hj, ht2, hlj⟩
    · exact acquireAllPar_cache_mono oracle look t.2.2 ts 0 c0 hc0
    · have h3 := acquireAllPar_miss_inserted oracle hok look ts 0 c0 j t2 hj
        (by rwa [Nat.zero_add])
      rwa [ht2] at h3

theorem startLook_sound (c : Cache) (ts : List (Int × Int × String)) :
    LookSound c ts (startLook c ts) := by
  intro i t hi
  have hlk : startLook c ts i = cacheGet c t.2.2 := by
    simp only [startLook, hi]
  constructor
  · intro hsome
    rw [hlk]
    exact hsome
  · intro hsome
    left
    rwa [hlk] at hsome

theorem renderPar_abort_build (oracle : Oracle) (look : Nat → Option Pixmap)
    (m : StaticMap) (e : Error) (hb : m.bounds.build m.tools = .error e) :
    renderPar oracle look m = (.error e, m.tile_cache, []) := by
  simp [renderPar, hb]

theorem renderPar_abort_size (oracle : Oracle) (look : Nat → Option Pixmap)
    (m : StaticMap) (bounds : Bounds)
    (hb : m.bounds.build m.tools = .ok bounds)
    (hp : pixmapNew bounds.width bounds.height = none) :
    renderPar oracle look m = (.error .InvalidSize, m.tile_cache, []) := by
  simp [renderPar, hb, hp]

theorem renderPar_snd_acquire (oracle : Oracle) (look : Nat → Option Pixmap)
    (m : StaticMap) (bounds : Bounds) (img : Pixmap)
    (hb : m.bounds.build m.tools = .ok bounds)
    (hp : pixmapNew bounds.width bounds.height = some img) :
    (renderPar oracle look m).2 =
      (acquireAllPar oracle look 0 m.tile_cache (baseTiles m.url_template bounds)).2 := by
  simp only [renderPar, hb, hp, drawBaseLayerPar]

theorem tilesOf_error (m : StaticMap) (e : Error)
    (hb : m.bounds.build m.tools = .error e) : tilesOf m = [] := by
  simp [tilesOf, hb]

theorem tilesOf_ok (m : StaticMap) (bounds : Bounds)
    (hb : m.bounds.build m.tools = .ok bounds) :
    tilesOf m = baseTiles m.url_template bounds := by
  simp [tilesOf, hb]

/-- C5 as amended: across two successive renders sharing one cache handle, in
a world where every fetch attempt succeeds and under every interleaving of
the tile worker pool (every pair of sound lookup views): a tile URL present
in the shared cache when a render starts is never fetched during that render;
every successfully fetched tile is inserted into the shared cache keyed by
its URL before the acquisition pass returns; and consequently no URL
enumerated by the first render is fetched at all during the second render.
Within a single render, concurrent misses on one URL may each trigger an
independent fetch, so the original at-most-one-fetch-per-URL bound fails —
see the counterexample. -/
theorem claim5_cache_reuse (oracle : Oracle) (m : StaticMap)
    (look1 look2 : Nat → Option Pixmap)
    (hok : ∀ u2 k, (oracle u2 k).isOk = true)
    (h1 : LookSound m.tile_cache (tilesOf m) look1)
    (h2 : LookSound (renderPar oracle look1 m).2.1 (tilesOf m) look2) :
    (∀ u, (cacheGet m.tile_cache u).isSome = true →
      fetchCount ((renderPar oracle look1 m).2.2 ++
        (renderPar oracle look2
          { m with tile_cache := (renderPar oracle look1 m).2.1 }).2.2) u = 0) ∧
    (∀ e ∈ (renderPar oracle look1 m).2.2,
      (cacheGet (renderPar oracle look1 m).2.1 e.url).isSome = true) ∧
    (∀ e ∈ (renderPar oracle look2
        { m with tile_cache := (renderPar oracle look1 m).2.1 }).2.2,
      (cacheGet (renderPar oracle look2
        { m with tile_cache := (renderPar oracle look1 m).2.1 }).2.1 e.url).isSome = true) ∧
    (∀ i t, (tilesOf m).get? i = some t →
      fetchCount (renderPar oracle look2
        { m with tile_cache := (renderPar oracle look1 m).2.1 }).2.2 t.2.2 = 0) := by
  cases hb : m.bounds.build m.tools with
  | error e =>
    have r1 := renderPar_abort_build oracle look1 m e hb
    have r2 := renderPar_abort_build oracle look2
      { m with tile_cache := (renderPar oracle look1 m).2.1 } e hb
    simp only [r1] at r2
    refine ⟨?_, ?_, ?_, ?_⟩ <;> simp [r1, r2, fetchCount]
  | ok bounds =>
    cases hp : pixmapNew bounds.width bounds.height with
    | none =>
      have r1 := renderPar_abort_size oracle look1 m bounds hb hp
      have r2 := renderPar_abort_size oracle look2
        { m with tile_cache := (renderPar oracle look1 m).2.1 } bounds hb hp
      simp only [r1] at r2
      refine ⟨?_, ?_, ?_, ?_⟩ <;> simp [r1, r2, fetchCount]
    | some img =>
      have hts := tilesOf_ok m bounds hb
      have r1 := renderPar_snd_acquire oracle look1 m bounds img hb hp
      have r2 : (renderPar oracle look2
          { m with tile_cache := (renderPar oracle look1 m).2.1 }).2 =
          (acquireAllPar oracle look2 0 (renderPar oracle look1 m).2.1
            (baseTiles m.url_template bounds)).2 :=
        renderPar_snd_acquire oracle look2
          { m with tile_cache := (renderPar oracle look1 m).2.1 } bounds img hb hp
      have r1c : (renderPar oracle look1 m).2.1 =
          (acquireAllPar oracle look1 0 m.tile_cache
            (baseTiles m.url_template bounds)).2.1 := by rw [r1]
      have r1l : (renderPar oracle look1 m).2.2 =
          (acquireAllPar oracle look1 0 m.tile_cache
            (baseTiles m.url_template bounds)).2.2 := by rw [r1]
      have r2c : (renderPar oracle look2
          { m with tile_cache := (renderPar oracle look1 m).2.1 }).2.1 =
          (acquireAllPar oracle look2 0 (renderPar oracle look1 m).2.1
            (baseTiles m.url_template bounds)).2.1 := by rw [r2]
      have r2l : (renderPar oracle look2
          { m with tile_cache := (renderPar oracle look1 m).2.1 }).2.2 =
          (acquireAllPar oracle look2 0 (renderPar oracle look1 m).2.1
            (baseTiles m.url_template bounds)).2.2 := by rw [r2]
      rw [hts] at h1 h2
      refine ⟨?_, ?_, ?_, ?_⟩
      · intro u hu
        rw [fetchCount_append]
        have hz1 : fetchCount (renderPar oracle look1 m).2.2 u = 0 := by
          rw [r1l]
          refine fetchCount_eq_zero _ u
            (acquireAllPar_not_fetched oracle look1 u _ 0 m.tile_cache ?_)
          intro j t hj htu
          rw [Nat.zero_add]
          exact (h1 j t hj).1 (by rw [htu]; exact hu)
        have hu1 : (cacheGet (renderPar oracle look1 m).2.1 u).isSome = true := by
          rw [r1c]
          exact acquireAllPar_cache_mono oracle look1 u _ 0 m.tile_cache hu
        have hz2 : fetchCount (renderPar oracle look2
            { m with tile_cache := (renderPar oracle look1 m).2.1 }).2.2 u = 0 := by
          rw [r2l]
          refine fetchCount_eq_zero _ u
            (acquireAllPar_not_fetched oracle look2 u _ 0 _ ?_)
          intro j t hj htu
          rw [Nat.zero_add]
          exact (h2 j t hj).1 (by rw [htu]; exact hu1)
        rw [hz1, hz2]
      · intro e he
        rw [r1l] at he
        rw [r1c]
        exact acquireAllPar_log_inserted oracle hok look1 _ 0 m.tile_cache e he
      · intro e he
        rw [r2l] at he
        rw [r2c]
        exact acquireAllPar_log_inserted oracle hok look2 _ 0 _ e he
      · intro i t hti
        rw [hts] at hti
        have hc1 : (cacheGet (renderPar oracle look1 m).2.1 t.2.2).isSome = true := by
          rw [r1c]
          exact acquireAllPar_all_cached oracle hok look1 m.tile_cache _ h1 i t hti
        rw [r2l]
        refine fetchCount_eq_zero _ t.2.2
          (acquireAllPar_not_fetched oracle look2 t.2.2 _ 0 _ ?_)
        intro j t2 hj ht2
        rw [Nat.zero_add]
        exact (h2 j t2 hj).1 (by rw [ht2]; exact hc1)

/-- C5, counterexample to the claim as stated: under the fully concurrent
schedule — all four workers of the first render look up the still-empty
shared cache before any insert lands, realizable since the pool has 24
threads — the four enumerated tiles of `exMap` all carry the URL "0-0-0"
and each triggers its own fetch: four network fetches for one distinct tile
URL across the two renders, not at most one.  Both schedules are sound
interleavings. -/
theorem claim5_single_fetch_counterexample :
    LookSound exMap.tile_cache (tilesOf exMap)
      (startLook exMap.tile_cache (tilesOf exMap)) ∧
    LookSound (renderPar okOracle (startLook exMap.tile_cache (tilesOf exMap)) exMap).2.1
      (tilesOf exMap)
      (startLook (renderPar okOracle (startLook exMap.tile_cache (tilesOf exMap)) exMap).2.1
        (tilesOf exMap)) ∧
    fetchCount
      ((renderPar okOracle (startLook exMap.tile_cache (tilesOf exMap)) exMap).2.2 ++
        (renderPar okOracle
          (startLook
            (renderPar okOracle (startLook exMap.tile_cache (tilesOf exMap)) exMap).2.1
            (tilesOf exMap))
          { exMap with tile_cache :=
              (renderPar okOracle (startLook exMap.tile_cache (tilesOf exMap)) exMap).2.1 }).2.2)
      "0-0-0" = 4 ∧
    ¬ (4 : Nat) ≤ 1 :=
  ⟨startLook_sound _ _, startLook_sound _ _, by decide, by decide⟩

/-- C5 witness: the always-succeeding world on the concrete map `exMap`
under the fully concurrent schedules of both renders, projected to the
cached-URLs-never-fetched conclusion. -/
theorem claim5_cache_reuse_witness :
    (∀ u2 k, (okOracle u2 k).isOk = true) ∧
    (∀ u, (cacheGet exMap.tile_cache u).isSome = true →
      fetchCount
        ((renderPar okOracle (startLook exMap.tile_cache (tilesOf exMap)) exMap).2.2 ++
          (renderPar okOracle
            (startLook
              (renderPar okOracle (startLook exMap.tile_cache (tilesOf exMap)) exMap).2.1
              (tilesOf exMap))
            { exMap with tile_cache :=
                (renderPar okOracle (startLook exMap.tile_cache (tilesOf exMap)) exMap).2.1 }).2.2)
        u = 0) :=
  ⟨fun _ _ => rfl,
    (claim5_cache_reuse okOracle exMap (startLook exMap.tile_cache (tilesOf exMap))
      (startLook
        (renderPar okOracle (startLook exMap.tile_cache (tilesOf exMap)) exMap).2.1
        (tilesOf exMap))
      (fun _ _ => rfl) (startLook_sound _ _) (startLook_sound _ _)).1⟩

end Staticmap
